import Mathlib

/-!
Verification development for the Min-Meet meeting-transcript engine
(`src/app.py`, class `MeetingStore`).

Shallow embedding conventions:
* Python `str` values are embedded as `List Char` (`Text`); `str.lower`,
  `str.strip`, `str.startswith`, `str.endswith`, `in` (substring) become
  the corresponding list operations below.
* Python floats (voice features, scores) are embedded as `ℚ` (exact
  arithmetic in place of IEEE floats).
* Speaker ids (`uuid4` hex strings in the source) are embedded as `Nat`
  drawn from a fresh-id supply `idSupply` carried in the store; a Python
  id string is always truthy, matching `Option.isSome` on the embedded id.
* Wall-clock timestamps (`datetime.now()`) are metadata never read by the
  algorithms except as noted; ISO timestamps on the store are embedded as
  `Option Int` (epoch seconds).  Per-entry / per-profile timestamp fields
  are omitted from the embedding.
* Python dicts keyed by speaker id (`self.participants`) are embedded as
  insertion-ordered association lists, matching dict iteration order.
* Python `set` (`self.audio_sources`) is embedded as a duplicate-free
  insertion-ordered list.
-/

abbrev Text := List Char

/-- The apostrophe character (several source literals contain it). -/
def apos : Char := Char.ofNat 39

/-- Embeds `str.lower` (ASCII approximation of Python case folding). -/
def toLowerT (t : Text) : Text := t.map Char.toLower

/-- Embeds `str.strip`: drop leading and trailing whitespace. -/
def stripT (t : Text) : Text :=
  ((t.dropWhile Char.isWhitespace).reverse.dropWhile Char.isWhitespace).reverse

/-- Embeds `str.endswith(c)` for a single character `c`. -/
def endsWithC (t : Text) (c : Char) : Bool := t.getLast? == some c

/-- Embeds Python regex `\w` (ASCII approximation): letter, digit or underscore. -/
def isWordChar (c : Char) : Bool := c.isAlphanum || c == '_'

/-- Embeds `text.split()[0]` together with the non-emptiness test
`words and words[0] ...`: the first maximal whitespace-free run, if any. -/
def firstWordT (t : Text) : Option Text :=
  match t.dropWhile Char.isWhitespace with
  | [] => none
  | c :: rest => some ((c :: rest).takeWhile (fun d => !d.isWhitespace))

/-- Embeds Python substring containment `p in t`. -/
def isInfixOfT (p : Text) : Text → Bool
  | [] => p.isEmpty
  | c :: rest => p.isPrefixOf (c :: rest) || isInfixOfT p rest

/-- Match a literal alternative at the head of the text, returning the rest. -/
def dropLit (w : Text) (t : Text) : Option Text :=
  if w.isPrefixOf t then some (t.drop w.length) else none

/-- Embeds `\s+` followed by a continuation that cannot begin with
whitespace (all continuations in the source patterns are word literals or
`\w+`): require one whitespace character, then skip the rest of the
whitespace run greedily. -/
def afterWsPlus (t : Text) : Option Text :=
  match t with
  | [] => none
  | c :: rest =>
      if c.isWhitespace then some (rest.dropWhile Char.isWhitespace) else none

/-- Embeds `\s+(.+)`: some non-empty whitespace run followed by at least one
character other than a newline (Python `.` does not match `\n`). -/
def wsThenDotPlus : Text → Bool
  | [] => false
  | [_] => false
  | c :: d :: rest => c.isWhitespace && (d != '\n' || wsThenDotPlus (d :: rest))

/-- Embeds the `\b` before an alternation of word-initial literals: the
previous character (if any) is not a word character. -/
def boundaryOk (prev : Option Char) : Bool :=
  match prev with
  | none => true
  | some c => !isWordChar c

/-- Embeds the trailing `\b` after a literal ending in a word character:
the next character (if any) is not a word character. -/
def trailingBoundary (t : Text) : Bool :=
  match t with
  | [] => true
  | c :: _ => !isWordChar c

/-- Embeds `re.search`: try a positional matcher at every position of the
text (tracking the preceding character for `\b`). -/
def scanPositions (check : Option Char → Text → Bool) : Option Char → Text → Bool
  | prev, [] => check prev []
  | prev, c :: rest => check prev (c :: rest) || scanPositions check (some c) rest

/-! ### Literal vocabularies from `src/app.py` -/

/-- The `starters` list in `MeetingStore.is_question`. -/
def questionStarters : List Text :=
  ["what".toList, "where".toList, "when".toList, "why".toList, "who".toList,
   "how".toList, "is".toList, "are".toList, "can".toList, "could".toList,
   "would".toList, "should".toList, "will".toList, "do".toList, "does".toList,
   "did".toList, "have".toList, "has".toList, "am".toList, "was".toList,
   "were".toList]

/-- First group of question pattern 1: `(what|where|when|why|how|who)`. -/
def qPat1Group1 : List Text :=
  ["what".toList, "where".toList, "when".toList, "why".toList, "how".toList,
   "who".toList]

/-- Second group of question pattern 1:
`(is|are|was|were|do|does|did|can|could|would)`. -/
def qPat1Group2 : List Text :=
  ["is".toList, "are".toList, "was".toList, "were".toList, "do".toList,
   "does".toList, "did".toList, "can".toList, "could".toList, "would".toList]

/-- Group of question pattern 2: `(can you|could you|would you|will you)`. -/
def qPat2Group : List Text :=
  ["can you".toList, "could you".toList, "would you".toList, "will you".toList]

/-- Group of question pattern 3:
`(let me know|tell me|i'm wondering|i was wondering)`. -/
def qPat3Group : List Text :=
  ["let me know".toList, "tell me".toList,
   "i".toList ++ [apos] ++ "m wondering".toList, "i was wondering".toList]

/-- Group of question pattern 4: `(any idea|do you know|have you heard)`. -/
def qPat4Group : List Text :=
  ["any idea".toList, "do you know".toList, "have you heard".toList]

/-- The `indicators` list in `MeetingStore.detect_decision` (the source lists
`approved` twice; the duplicate is kept). -/
def decisionIndicators : List Text :=
  ["decided".toList, "decision".toList, "agreed".toList, "conclusion".toList,
   "finalized".toList, "resolved".toList, "approved".toList,
   "confirmed".toList, "consensus".toList, "settled on".toList,
   "moving forward with".toList,
   "we will".toList, "let".toList ++ [apos] ++ "s go with".toList,
   "approved".toList]

/-- Group of assignment pattern 1: `(i will|i'll|i am going to|i'm going to)`. -/
def assignGroup1 : List Text :=
  ["i will".toList, "i".toList ++ [apos] ++ "ll".toList,
   "i am going to".toList, "i".toList ++ [apos] ++ "m going to".toList]

/-- Group of assignment pattern 2: `(let me|i can|i should)`. -/
def assignGroup2 : List Text :=
  ["let me".toList, "i can".toList, "i should".toList]

/-- Group of assignment pattern 3: `(will you|can you|could you)`. -/
def assignGroup3 : List Text :=
  ["will you".toList, "can you".toList, "could you".toList]

/-- Group of assignment pattern 4: `(action item|todo|task|follow up|follow-up)`. -/
def assignGroup4 : List Text :=
  ["action item".toList, "todo".toList, "task".toList, "follow up".toList,
   "follow-up".toList]

/-- The `deadline_words` list in `MeetingStore.detect_action_item`. -/
def deadlineWords : List Text :=
  ["by tomorrow".toList, "by friday".toList, "by monday".toList,
   "by next".toList, "by the end of".toList, "asap".toList, "soon".toList,
   "this week".toList, "next week".toList]

/-- The `answer_starters` list in `MeetingStore.add_utterance`. -/
def answerStarters : List Text :=
  ["yes".toList, "no".toList, "absolutely".toList, "definitely".toList,
   "correct".toList, "right".toList, "exactly".toList, "sure".toList,
   "well".toList, "i think".toList, "in my opinion".toList]

/-! ### The classifier predicates -/

/-- Question pattern 1:
`\b(what|where|when|why|how|who)\s+(is|are|was|were|do|does|did|can|could|would)`. -/
def qPattern1 (t : Text) : Bool :=
  scanPositions
    (fun prev s =>
      boundaryOk prev &&
      qPat1Group1.any (fun w =>
        match dropLit w s with
        | some r =>
            (match afterWsPlus r with
             | some r2 => qPat1Group2.any (fun v => v.isPrefixOf r2)
             | none => false)
        | none => false))
    none t

/-- Question pattern 2: `\b(can you|could you|would you|will you)\s+\w+`. -/
def qPattern2 (t : Text) : Bool :=
  scanPositions
    (fun prev s =>
      boundaryOk prev &&
      qPat2Group.any (fun w =>
        match dropLit w s with
        | some r =>
            (match afterWsPlus r with
             | some (c :: _) => isWordChar c
             | _ => false)
        | none => false))
    none t

/-- Question patterns 3 and 4 share the shape `\b(lit|...)\b`. -/
def boundedLitsFound (lits : List Text) (t : Text) : Bool :=
  scanPositions
    (fun prev s =>
      boundaryOk prev &&
      lits.any (fun w =>
        match dropLit w s with
        | some r => trailingBoundary r
        | none => false))
    none t

/-- Assignment patterns 1-3 share the shape `(lit|...)\s+(.+)` (no `\b`). -/
def litsThenWsDot (lits : List Text) (t : Text) : Bool :=
  scanPositions
    (fun _ s =>
      lits.any (fun w =>
        match dropLit w s with
        | some r => wsThenDotPlus r
        | none => false))
    none t

/-- Embeds `MeetingStore.is_question` from `src/app.py`. -/
def is_question (text : Text) : Bool :=
  let t := stripT text
  let tl := toLowerT t
  if endsWithC t '?' then true
  else if (match firstWordT tl with
           | some w => questionStarters.contains w
           | none => false) then true
  else
    qPattern1 tl || qPattern2 tl || boundedLitsFound qPat3Group tl ||
      boundedLitsFound qPat4Group tl

/-- Embeds `MeetingStore.detect_decision` from `src/app.py`: case-insensitive
substring search for any decision indicator. -/
def detect_decision (text : Text) : Bool :=
  let tl := toLowerT text
  decisionIndicators.any (fun ind => isInfixOfT ind tl)

/-- Embeds `MeetingStore.detect_action_item` from `src/app.py` (the `speaker`
argument is unused in the source body and omitted here). -/
def detect_action_item (text : Text) : Bool :=
  let tl := toLowerT text
  litsThenWsDot assignGroup1 tl || litsThenWsDot assignGroup2 tl ||
    litsThenWsDot assignGroup3 tl ||
    assignGroup4.any (fun w => isInfixOfT w tl) ||
    deadlineWords.any (fun d => isInfixOfT d tl)


/-! ### Data model -/

/-- The `voice_features` payload: three optional numeric fields (the
`channel` key is only used to build the dead local `source_key` in the
source and is omitted). -/
structure VoiceFeatures where
  avg_pitch : Option ℚ
  words_per_minute : Option ℚ
  energy : Option ℚ
deriving Repr, DecidableEq

/-- A speaker profile (`self.participants[speaker_id]` dict); the
`voice_id` field (equal to the key) and the `first_seen` timestamp are
omitted. -/
structure Participant where
  name : Text
  avg_pitch : ℚ
  avg_pace : ℚ
  avg_energy : ℚ
  audio_source : Text
  is_remote : Bool
  samples_count : Nat
deriving Repr, DecidableEq

/-- The `type` field of a transcript entry. -/
inductive EType
  | statement
  | question
  | answer
deriving Repr, DecidableEq

/-- A transcript entry dict (the wall-clock `timestamp` field is omitted);
optional dict keys become `Option`/`Bool` fields defaulting to
absent/false. -/
structure Entry where
  speaker_id : Nat
  speaker_name : Text
  text : Text
  type : EType
  audio_source : Text
  is_remote : Bool
  vf_pitch : Option ℚ
  vf_pace : Option ℚ
  vf_energy : Option ℚ
  question_id : Option Nat := none
  answers_question : Option Nat := none
  is_decision : Bool := false
  is_action_item : Bool := false
  assignee : Option Text := none
deriving Repr, DecidableEq

/-- An element of `self.unanswered_questions` (timestamp omitted). -/
structure PendingQ where
  index : Nat
  speaker : Nat
deriving Repr, DecidableEq

/-- The per-session state (`MeetingStore.__init__`), plus the fresh-id
supply `idSupply` standing in for `uuid4`. -/
structure MeetingStore where
  meeting_type : Text
  participants : List (Nat × Participant)
  speaker_counter : Nat
  transcript : List Entry
  unanswered_questions : List PendingQ
  start_time : Option Int
  end_time : Option Int
  meeting_title : Text
  audio_sources : List Text
  idSupply : Nat
deriving Repr, DecidableEq

/-- Embeds `MeetingStore.__init__(meeting_type)` (the title is built from the
wall clock in the source and is taken as a parameter here). -/
def MeetingStore.init (meeting_type : Text) (title : Text) : MeetingStore :=
  { meeting_type := meeting_type, participants := [], speaker_counter := 0,
    transcript := [], unanswered_questions := [], start_time := none,
    end_time := none, meeting_title := title, audio_sources := [],
    idSupply := 0 }

/-- The remote audio-source kinds from `get_or_create_speaker`. -/
def remoteSources : List Text :=
  ["tab_audio".toList, "system_audio".toList, "screen_share".toList]

/-! ### Speaker resolution (`MeetingStore.get_or_create_speaker`) -/

/-- The weighted distance of one profile to the incoming features; absent
feature fields fall back to `voice_features.get(key, 0)`, i.e. `0`, in
this computation. -/
def profileScore (data : Participant) (vf : VoiceFeatures) : ℚ :=
  let pitch_diff := |data.avg_pitch - vf.avg_pitch.getD 0|
  let pace_diff := |data.avg_pace - vf.words_per_minute.getD 0| / 10
  let energy_diff := |data.avg_energy - vf.energy.getD 0| / 50
  pitch_diff * 0.5 + pace_diff * 0.3 + energy_diff * 0.2

/-- The matching loop of `get_or_create_speaker`: fold over the profiles,
keeping the best (id, score) seen so far; `none` plays the role of the
initial `best_score = float('inf')`. -/
def scanProfiles (vf : VoiceFeatures) (threshold : ℚ) :
    List (Nat × Participant) → Option (Nat × ℚ) → Option (Nat × ℚ)
  | [], best => best
  | (sid, data) :: rest, none =>
      if profileScore data vf < threshold then
        scanProfiles vf threshold rest (some (sid, profileScore data vf))
      else scanProfiles vf threshold rest none
  | (sid, data) :: rest, some (bid, bs) =>
      if profileScore data vf < threshold ∧ profileScore data vf < bs then
        scanProfiles vf threshold rest (some (sid, profileScore data vf))
      else scanProfiles vf threshold rest (some (bid, bs))

/-- Dict lookup `self.participants[sid]` on the association-list model. -/
def lookupP (ps : List (Nat × Participant)) (sid : Nat) : Option Participant :=
  match ps.find? (fun ip => ip.1 == sid) with
  | some ip => some ip.2
  | none => none

/-- In-place dict value update, preserving iteration order. -/
def updateP (ps : List (Nat × Participant)) (sid : Nat) (p : Participant) :
    List (Nat × Participant) :=
  ps.map (fun ip => if ip.1 == sid then (sid, p) else ip)

/-- Embeds `len([t for t in self.transcript if t['speaker_id'] == sid])`. -/
def countBySpeaker (tr : List Entry) (sid : Nat) : Nat :=
  (tr.filter (fun t => t.speaker_id == sid)).length

/-- Embeds `threshold = 25 if self.meeting_type == 'hybrid' else 20`. -/
def MeetingStore.threshold (s : MeetingStore) : ℚ :=
  if s.meeting_type = "hybrid".toList then 25 else 20

/-- Placeholder profile for the total modelling of dict lookup; the lookup
in `add_utterance` always succeeds in the source. -/
def defaultParticipant : Participant :=
  { name := [], avg_pitch := 0, avg_pace := 0, avg_energy := 0,
    audio_source := [], is_remote := false, samples_count := 0 }

/-- Embeds `MeetingStore.get_or_create_speaker` from `src/app.py` (the dead local
`source_key` of the source is not reproduced). -/
def MeetingStore.get_or_create_speaker (s : MeetingStore) (vf : VoiceFeatures)
    (audio_source : Text) : Nat × MeetingStore :=
  match scanProfiles vf s.threshold s.participants none with
  | some (best_match, _) =>
      match lookupP s.participants best_match with
      | some data =>
          let old_count := countBySpeaker s.transcript best_match
          let alpha : ℚ := 0.3
          let data' := { data with
            avg_pitch := alpha * vf.avg_pitch.getD 100 +
                         (1 - alpha) * data.avg_pitch,
            avg_pace := alpha * vf.words_per_minute.getD 120 +
                        (1 - alpha) * data.avg_pace,
            samples_count := old_count + 1 }
          (best_match, { s with participants := updateP s.participants best_match data' })
      | none =>
          -- unreachable: `best_match` is drawn from `self.participants`
          (best_match, s)
  | none =>
      let counter := s.speaker_counter + 1
      let sid := s.idSupply
      let is_remote := remoteSources.contains audio_source
      let p : Participant :=
        { name := "Participant ".toList ++ Nat.toDigits 10 counter ++
                  (if is_remote then " (Remote)".toList else []),
          avg_pitch := vf.avg_pitch.getD 100,
          avg_pace := vf.words_per_minute.getD 120,
          avg_energy := vf.energy.getD 5000,
          audio_source := audio_source,
          is_remote := is_remote,
          samples_count := 1 }
      (sid, { s with speaker_counter := counter,
                     participants := s.participants ++ [(sid, p)],
                     idSupply := s.idSupply + 1 })

/-! ### Appending an utterance (`MeetingStore.add_utterance`) -/

/-- Embeds `self.audio_sources.add(source)` on the insertion-ordered set model. -/
def addSource (srcs : List Text) (src : Text) : List Text :=
  if srcs.contains src then srcs else srcs ++ [src]

/-- The condition deciding `is_answer` in `add_utterance` (after the
possible override by an answer starter). -/
def isAnswerB (text : Text) (time_since_q : Int) (last_speaker speaker_id : Nat) : Bool :=
  (decide (time_since_q ≤ 4) && (last_speaker != speaker_id) &&
    !(endsWithC text '?'))
  || answerStarters.any (fun st => st.isPrefixOf (toLowerT text))

/-- The condition deciding whether the answered question is popped. -/
def popsB (text : Text) (time_since_q : Int) : Bool :=
  decide (time_since_q ≥ 2) || endsWithC text '.' || decide (text.length > 100)

/-- The question/answer classification and threading block of
`add_utterance`: produces the entry (typed, with `question_id` or
`answers_question` set) and the new pending-question stack.  `tlen` is
`len(self.transcript)` at the time of the call, i.e. the new entry's index. -/
def threadClassify (entry0 : Entry) (text : Text) (tlen : Nat)
    (speaker_id : Nat) (pending : List PendingQ) : Entry × List PendingQ :=
  if is_question text then
    ({ entry0 with type := EType.question, question_id := some tlen },
     pending ++ [{ index := tlen, speaker := speaker_id }])
  else
    match pending.getLast? with
    | none => (entry0, pending)
    | some last_q =>
        let time_since_q : Int := (tlen : Int) - (last_q.index : Int)
        if isAnswerB text time_since_q last_q.speaker speaker_id then
          ({ entry0 with type := EType.answer,
                         answers_question := some last_q.index },
           if popsB text time_since_q then pending.dropLast else pending)
        else (entry0, pending)

/-- The two independent flag blocks at the end of `add_utterance`. -/
def applyFlags (e : Entry) (text : Text) (assignee_name : Text) : Entry :=
  let e1 := if detect_decision text then { e with is_decision := true } else e
  if detect_action_item text then
    { e1 with is_action_item := true, assignee := some assignee_name }
  else e1

/-- The freshly built entry dict of `add_utterance`, before classification
and flags. -/
def baseEntry (speaker_id : Nat) (speaker_data : Participant) (text : Text)
    (vf : VoiceFeatures) (audio_source : Text) : Entry :=
  { speaker_id := speaker_id,
    speaker_name := speaker_data.name,
    text := text,
    type := EType.statement,
    audio_source := audio_source,
    is_remote := speaker_data.is_remote,
    vf_pitch := vf.avg_pitch,
    vf_pace := vf.words_per_minute,
    vf_energy := vf.energy }

/-- Embeds `MeetingStore.add_utterance` from `src/app.py`. -/
def MeetingStore.add_utterance (s : MeetingStore) (text : Text)
    (vf : VoiceFeatures) (audio_source : Text) : Entry × MeetingStore :=
  let res := s.get_or_create_speaker vf audio_source
  let speaker_id := res.1
  let s1 := res.2
  let speaker_data := (lookupP s1.participants speaker_id).getD defaultParticipant
  let entry0 := baseEntry speaker_id speaker_data text vf audio_source
  let step := threadClassify entry0 text s1.transcript.length speaker_id
    s1.unanswered_questions
  let entry3 := applyFlags step.1 text speaker_data.name
  (entry3, { s1 with transcript := s1.transcript ++ [entry3],
                     unanswered_questions := step.2,
                     audio_sources := addSource s1.audio_sources audio_source })

/-! ### Minutes synthesis (`MeetingStore.get_minutes_structure`)

The source appends entry dicts to the output lists; an entry is determined
by its transcript index, so the embedded groups and buckets store the
transcript indices of their members (the `used_indices` set of the source
is literally an index set). -/

/-- One element of `minutes['qa_pairs']`, by transcript index. -/
structure QAGroup where
  question : Nat
  answers : List Nat
  follow_ups : List Nat
deriving Repr, DecidableEq

/-- The `while j < len(transcript)` scan of `get_minutes_structure`,
started on the suffix `transcript[j:]`; returns the collected answer and
follow-up indices.  `rest ≠ []` embeds `j < len(self.transcript) - 1`. -/
def scanQA (i qspeaker : Nat) : List Entry → Nat → List Nat × List Nat
  | [], _ => ([], [])
  | e :: rest, j =>
      if e.answers_question == some i then
        let acc := scanQA i qspeaker rest (j + 1)
        (j :: acc.1, acc.2)
      else if e.type = EType.question ∧ rest ≠ [] then
        (if e.speaker_id = qspeaker then ([], [j]) else ([], []))
      else ([], [])

/-- The first `for i, entry in enumerate(self.transcript)` loop: a Q&A
group is opened at every question-typed entry. -/
def qaPairs (tr : List Entry) : List QAGroup :=
  (List.range tr.length).filterMap (fun i =>
    match tr[i]? with
    | some e =>
        if e.type = EType.question then
          let acc := scanQA i e.speaker_id (tr.drop (i + 1)) (i + 1)
          some { question := i, answers := acc.1, follow_ups := acc.2 }
        else none
    | none => none)

/-- All transcript indices consumed by a group. -/
def QAGroup.indices (g : QAGroup) : List Nat :=
  g.question :: (g.answers ++ g.follow_ups)

/-- The `used_indices` set accumulated by the first loop. -/
def usedIndices (tr : List Entry) : List Nat :=
  (qaPairs tr).foldr (fun g acc => g.indices ++ acc) []

/-- Second loop, `minutes['decisions']` bucket: unused entries flagged
`is_decision`. -/
def minutesDecisions (tr : List Entry) : List Nat :=
  (List.range tr.length).filter (fun i =>
    !(usedIndices tr).contains i &&
      (match tr[i]? with
       | some e => e.is_decision
       | none => false))

/-- Second loop, `minutes['action_items']` bucket: unused entries not
flagged `is_decision` but flagged `is_action_item`. -/
def minutesActionItems (tr : List Entry) : List Nat :=
  (List.range tr.length).filter (fun i =>
    !(usedIndices tr).contains i &&
      (match tr[i]? with
       | some e => !e.is_decision && e.is_action_item
       | none => false))

/-- Second loop, `minutes['key_discussion_points']` bucket: remaining
unused statements longer than 50 characters. -/
def minutesKeyPoints (tr : List Entry) : List Nat :=
  (List.range tr.length).filter (fun i =>
    !(usedIndices tr).contains i &&
      (match tr[i]? with
       | some e =>
           !e.is_decision && !e.is_action_item &&
             (e.type == EType.statement) && decide (e.text.length > 50)
       | none => false))

/-- Decimal rendering of an integer (for the duration string). -/
def formatInt (n : Int) : Text :=
  if n < 0 then '-' :: Nat.toDigits 10 n.natAbs else Nat.toDigits 10 n.natAbs

/-- Embeds `MeetingStore.calculate_duration`, over epoch-second timestamps; the
`except` branch of the source guards ISO-string parsing, which cannot fail
in this embedding. -/
def MeetingStore.calculate_duration (s : MeetingStore) : Text :=
  match s.start_time, s.end_time with
  | some st, some et =>
      let total : Int := et - st
      let hours := total.fdiv 3600
      let mins := (total.emod 3600).fdiv 60
      let secs := total.emod 60
      if hours > 0 then
        formatInt hours ++ "h ".toList ++ formatInt mins ++ "m ".toList ++
          formatInt secs ++ "s".toList
      else if mins > 0 then
        formatInt mins ++ "m ".toList ++ formatInt secs ++ "s".toList
      else formatInt secs ++ "s".toList
  | _, _ => "In progress".toList

/-- One element of the participant summary lists. -/
structure PartInfo where
  name : Text
  source : Text
  speaking_time : Nat
deriving Repr, DecidableEq

/-- The synthesized minutes document. -/
structure Minutes where
  title : Text
  date : Int
  meeting_type : Text
  duration : Text
  participants : List PartInfo
  remote_participants : List PartInfo
  qa_pairs : List QAGroup
  key_discussion_points : List Nat
  decisions : List Nat
  action_items : List Nat
  audio_sources : List Text
deriving Repr, DecidableEq

/-- Embeds `MeetingStore.get_minutes_structure` from `src/app.py`; `now` embeds
the `datetime.now()` fallback used for `minutes['date']` when no start
timestamp is recorded. -/
def MeetingStore.get_minutes_structure (s : MeetingStore) (now : Int) : Minutes :=
  let mkInfo : Nat × Participant → PartInfo := fun ip =>
    { name := ip.2.name, source := ip.2.audio_source,
      speaking_time := countBySpeaker s.transcript ip.1 }
  { title := s.meeting_title,
    date := s.start_time.getD now,
    meeting_type := s.meeting_type,
    duration := s.calculate_duration,
    participants := (s.participants.filter (fun ip => !ip.2.is_remote)).map mkInfo,
    remote_participants := (s.participants.filter (fun ip => ip.2.is_remote)).map mkInfo,
    qa_pairs := qaPairs s.transcript,
    key_discussion_points := minutesKeyPoints s.transcript,
    decisions := minutesDecisions s.transcript,
    action_items := minutesActionItems s.transcript,
    audio_sources := s.audio_sources }

/-! ### Reachable session states

A session is created by `start_meeting` (a fresh store whose start
timestamp is then recorded) and mutated only by `add_utterance` and by
`stop_meeting` recording the end timestamp. -/

inductive Reachable : MeetingStore → Prop
  | init (meeting_type title : Text) : Reachable (MeetingStore.init meeting_type title)
  | step {s : MeetingStore} (text : Text) (vf : VoiceFeatures)
      (audio_source : Text) :
      Reachable s → Reachable (s.add_utterance text vf audio_source).2
  | setStart {s : MeetingStore} (t : Int) :
      Reachable s → Reachable { s with start_time := some t }
  | setEnd {s : MeetingStore} (t : Int) :
      Reachable s → Reachable { s with end_time := some t }

/-! ### Claim-side definitions and invariants -/

/-- The distance score exactly as the specification writes it:
`0.5*|Δpitch| + 0.3*(|Δpace|/10) + 0.2*(|Δenergy|/50)`. -/
def claimScore (p : Participant) (pitch pace energy : ℚ) : ℚ :=
  0.5 * |p.avg_pitch - pitch| + 0.3 * (|p.avg_pace - pace| / 10) +
    0.2 * (|p.avg_energy - energy| / 50)

/-- Bookkeeping invariant of reachable stores: participant keys are
distinct and below the id supply, transcript speakers are below the id
supply, and each profile's sample counter equals the number of transcript
entries attributed to it. -/
def StoreInv (s : MeetingStore) : Prop :=
  (s.participants.map Prod.fst).Nodup ∧
  (∀ ip ∈ s.participants, ip.1 < s.idSupply ∧
      ip.2.samples_count = countBySpeaker s.transcript ip.1) ∧
  (∀ e ∈ s.transcript, e.speaker_id < s.idSupply)

/-- Every `answers_question` link of a transcript points strictly
backwards at a question entry carrying its own index as `question_id`. -/
def AnswersOK (tr : List Entry) : Prop :=
  ∀ (i k : Nat) (e : Entry), tr[i]? = some e → e.answers_question = some k →
    k < i ∧ ∃ qe, tr[k]? = some qe ∧ qe.type = EType.question ∧
      qe.question_id = some k

/-- Every pending-stack element indexes a question entry of the
transcript carrying its own index as `question_id`. -/
def PendingOK (tr : List Entry) (pending : List PendingQ) : Prop :=
  ∀ q ∈ pending, q.index < tr.length ∧
    ∃ qe, tr[q.index]? = some qe ∧ qe.type = EType.question ∧
      qe.question_id = some q.index

/-- Threading invariant of reachable stores. -/
def ThreadInv (s : MeetingStore) : Prop :=
  AnswersOK s.transcript ∧ PendingOK s.transcript s.unanswered_questions

/-! ### Concrete instances used to exercise the theorems -/

def vfMain : VoiceFeatures := ⟨some 100, some 120, some 5000⟩

def vfFar : VoiceFeatures := ⟨some 200, some 120, some 5000⟩

def vfEnergyShift : VoiceFeatures := ⟨some 100, some 120, some 4000⟩

def vfAbsent : VoiceFeatures := ⟨none, none, none⟩

/-- The profile that resolving `vfMain` from the microphone creates first
in a fresh session. -/
def p0 : Participant :=
  { name := "Participant 1".toList, avg_pitch := 100, avg_pace := 120,
    avg_energy := 5000, audio_source := "microphone".toList,
    is_remote := false, samples_count := 1 }

/-- A small hand-written session state: one known speaker, physical
meeting, started at time 0. -/
def sOne : MeetingStore :=
  { meeting_type := "physical".toList, participants := [(0, p0)],
    speaker_counter := 1, transcript := [], unanswered_questions := [],
    start_time := some 0, end_time := none, meeting_title := [],
    audio_sources := ["microphone".toList], idSupply := 1 }

def sInit : MeetingStore := MeetingStore.init "physical".toList []

/-- The state `sInit` after one appended utterance: the question
`What is the deadline?` asked by the newly created speaker `0`. -/
def sA : MeetingStore :=
  (sInit.add_utterance "What is the deadline?".toList vfMain
    "microphone".toList).2

/-- The transcript entry that the utterance of `sA` produces. -/
def qEntry0 : Entry :=
  { speaker_id := 0, speaker_name := "Participant 1".toList,
    text := "What is the deadline?".toList, type := EType.question,
    audio_source := "microphone".toList, is_remote := false,
    vf_pitch := some 100, vf_pace := some 120, vf_energy := some 5000,
    question_id := some 0 }

/-- A transcript in which an entry answering question 0 sits behind an
intervening non-answer statement: question by speaker 0, unrelated
statement by speaker 0, then an answer to question 0 by speaker 1 (exactly
what appending those three utterances produces). -/
def trC3 : List Entry :=
  [qEntry0,
   { speaker_id := 0, speaker_name := "Participant 1".toList,
     text := "The forecast looks fine".toList, type := EType.statement,
     audio_source := "microphone".toList, is_remote := false,
     vf_pitch := some 100, vf_pace := some 120, vf_energy := some 5000 },
   { speaker_id := 1, speaker_name := "Participant 2".toList,
     text := "Noon".toList, type := EType.answer,
     audio_source := "microphone".toList, is_remote := false,
     vf_pitch := some 200, vf_pace := some 120, vf_energy := some 5000,
     answers_question := some 0 }]

/-- A transcript with two consecutive questions by the same speaker and a
trailing statement: the second question is consumed as a follow-up of the
first group (exactly what appending those three utterances produces). -/
def trC4 : List Entry :=
  [qEntry0,
   { speaker_id := 0, speaker_name := "Participant 1".toList,
     text := "Where is the report?".toList, type := EType.question,
     audio_source := "microphone".toList, is_remote := false,
     vf_pitch := some 100, vf_pace := some 120, vf_energy := some 5000,
     question_id := some 1 },
   { speaker_id := 0, speaker_name := "Participant 1".toList,
     text := "Thanks everyone".toList, type := EType.statement,
     audio_source := "microphone".toList, is_remote := false,
     vf_pitch := some 100, vf_pace := some 120, vf_energy := some 5000 }]

/-! ## Structural lemmas about the embedded operations -/

theorem applyFlags_type (e : Entry) (t nm : Text) :
    (applyFlags e t nm).type = e.type := by
  simp only [applyFlags]
  split <;> split <;> rfl

theorem applyFlags_answers_question (e : Entry) (t nm : Text) :
    (applyFlags e t nm).answers_question = e.answers_question := by
  simp only [applyFlags]
  split <;> split <;> rfl

theorem applyFlags_question_id (e : Entry) (t nm : Text) :
    (applyFlags e t nm).question_id = e.question_id := by
  simp only [applyFlags]
  split <;> split <;> rfl

theorem applyFlags_speaker_id (e : Entry) (t nm : Text) :
    (applyFlags e t nm).speaker_id = e.speaker_id := by
  simp only [applyFlags]
  split <;> split <;> rfl

theorem applyFlags_text (e : Entry) (t nm : Text) :
    (applyFlags e t nm).text = e.text := by
  simp only [applyFlags]
  split <;> split <;> rfl

theorem goc_transcript (s : MeetingStore) (vf : VoiceFeatures) (src : Text) :
    (s.get_or_create_speaker vf src).2.transcript = s.transcript := by
  unfold MeetingStore.get_or_create_speaker
  repeat' split
  all_goals rfl

theorem goc_pending (s : MeetingStore) (vf : VoiceFeatures) (src : Text) :
    (s.get_or_create_speaker vf src).2.unanswered_questions =
      s.unanswered_questions := by
  unfold MeetingStore.get_or_create_speaker
  repeat' split
  all_goals rfl

theorem goc_meeting_type (s : MeetingStore) (vf : VoiceFeatures) (src : Text) :
    (s.get_or_create_speaker vf src).2.meeting_type = s.meeting_type := by
  unfold MeetingStore.get_or_create_speaker
  repeat' split
  all_goals rfl

theorem goc_idSupply_le (s : MeetingStore) (vf : VoiceFeatures) (src : Text) :
    s.idSupply ≤ (s.get_or_create_speaker vf src).2.idSupply := by
  unfold MeetingStore.get_or_create_speaker
  repeat' split
  all_goals simp

/-- Equation: `add_utterance`, rewritten through the components; the threading block
reads the transcript length and pending stack of the original store. -/
theorem add_utterance_unfold (s : MeetingStore) (text : Text)
    (vf : VoiceFeatures) (src : Text) :
    s.add_utterance text vf src =
      (let r := s.get_or_create_speaker vf src
       let sd := (lookupP r.2.participants r.1).getD defaultParticipant
       let step := threadClassify (baseEntry r.1 sd text vf src) text
         s.transcript.length r.1 s.unanswered_questions
       let e := applyFlags step.1 text sd.name
       (e, { r.2 with transcript := r.2.transcript ++ [e],
                      unanswered_questions := step.2,
                      audio_sources := addSource r.2.audio_sources src })) := by
  simp only [MeetingStore.add_utterance, goc_transcript, goc_pending]

/-! ## Characterizing the matching loop -/

theorem scanProfiles_eq_none (vf : VoiceFeatures) (thr : ℚ) :
    ∀ (ps : List (Nat × Participant)) (acc : Option (Nat × ℚ)),
      scanProfiles vf thr ps acc = none →
        acc = none ∧ ∀ ip ∈ ps, thr ≤ profileScore ip.2 vf := by
  intro ps
  induction ps with
  | nil =>
    intro acc h
    simp only [scanProfiles] at h
    exact ⟨h, by simp⟩
  | cons hd tl ih =>
    obtain ⟨id0, d0⟩ := hd
    intro acc h
    cases acc with
    | none =>
        simp only [scanProfiles] at h
        by_cases h0 : profileScore d0 vf < thr
        · rw [if_pos h0] at h
          exact absurd (ih _ h).1 (by simp)
        · rw [if_neg h0] at h
          obtain ⟨-, htl⟩ := ih _ h
          refine ⟨rfl, ?_⟩
          intro ip hip
          rcases List.mem_cons.mp hip with hip | hip
          · rw [hip]; exact le_of_not_lt h0
          · exact htl ip hip
    | some b =>
        obtain ⟨bid, bs⟩ := b
        simp only [scanProfiles] at h
        split at h
        · exact absurd (ih _ h).1 (by simp)
        · exact absurd (ih _ h).1 (by simp)

theorem scanProfiles_eq_some (vf : VoiceFeatures) (thr : ℚ) :
    ∀ (ps : List (Nat × Participant)) (acc : Option (Nat × ℚ)) (sid : Nat) (sc : ℚ),
      scanProfiles vf thr ps acc = some (sid, sc) →
        ((acc = some (sid, sc) ∨
            ∃ p, (sid, p) ∈ ps ∧ profileScore p vf = sc ∧ sc < thr) ∧
         (∀ ip ∈ ps, profileScore ip.2 vf < thr → sc ≤ profileScore ip.2 vf) ∧
         (∀ b : Nat × ℚ, acc = some b → sc ≤ b.2)) := by
  intro ps
  induction ps with
  | nil =>
    intro acc sid sc h
    simp only [scanProfiles] at h
    refine ⟨Or.inl h, by simp, ?_⟩
    intro b hb
    rw [h] at hb
    cases hb
    rfl
  | cons hd tl ih =>
    obtain ⟨id0, d0⟩ := hd
    intro acc sid sc h
    cases acc with
    | none =>
        simp only [scanProfiles] at h
        by_cases h0 : profileScore d0 vf < thr
        · rw [if_pos h0] at h
          obtain ⟨hmem, hmin, hacc⟩ := ih _ sid sc h
          have hle : sc ≤ profileScore d0 vf := hacc (id0, profileScore d0 vf) rfl
          constructor
          · rcases hmem with heq | ⟨p, hp, hsc, hlt⟩
            · cases heq
              exact Or.inr ⟨d0, List.mem_cons_self _ _, rfl, h0⟩
            · exact Or.inr ⟨p, List.mem_cons_of_mem _ hp, hsc, hlt⟩
          refine ⟨?_, by intro b hb; cases hb⟩
          intro ip hip hlt
          rcases List.mem_cons.mp hip with hip | hip
          · rw [hip]; exact hle
          · exact hmin ip hip hlt
        · rw [if_neg h0] at h
          obtain ⟨hmem, hmin, -⟩ := ih _ sid sc h
          constructor
          · rcases hmem with heq | ⟨p, hp, hsc, hlt⟩
            · cases heq
            · exact Or.inr ⟨p, List.mem_cons_of_mem _ hp, hsc, hlt⟩
          refine ⟨?_, by intro b hb; cases hb⟩
          intro ip hip hlt
          rcases List.mem_cons.mp hip with hip | hip
          · rw [hip] at hlt ⊢; exact absurd hlt h0
          · exact hmin ip hip hlt
    | some b =>
        obtain ⟨bid, bs⟩ := b
        simp only [scanProfiles] at h
        by_cases h0 : profileScore d0 vf < thr ∧ profileScore d0 vf < bs
        · rw [if_pos h0] at h
          obtain ⟨hmem, hmin, hacc⟩ := ih _ sid sc h
          have hle : sc ≤ profileScore d0 vf := hacc (id0, profileScore d0 vf) rfl
          constructor
          · rcases hmem with heq | ⟨p, hp, hsc, hlt⟩
            · cases heq
              exact Or.inr ⟨d0, List.mem_cons_self _ _, rfl, h0.1⟩
            · exact Or.inr ⟨p, List.mem_cons_of_mem _ hp, hsc, hlt⟩
          constructor
          · intro ip hip hlt
            rcases List.mem_cons.mp hip with hip | hip
            · rw [hip]; exact hle
            · exact hmin ip hip hlt
          · intro b hb
            cases hb
            exact le_of_lt (lt_of_le_of_lt hle h0.2)
        · rw [if_neg h0] at h
          obtain ⟨hmem, hmin, hacc⟩ := ih _ sid sc h
          have hbs : sc ≤ bs := hacc (bid, bs) rfl
          constructor
          · rcases hmem with heq | ⟨p, hp, hsc, hlt⟩
            · exact Or.inl heq
            · exact Or.inr ⟨p, List.mem_cons_of_mem _ hp, hsc, hlt⟩
          constructor
          · intro ip hip hlt
            rcases List.mem_cons.mp hip with hip | hip
            · rw [hip] at hlt ⊢
              rcases not_and_or.mp h0 with h1 | h1
              · exact absurd hlt h1
              · exact le_trans hbs (le_of_not_lt h1)
            · exact hmin ip hip hlt
          · intro b hb
            cases hb
            exact hbs

/-- The run of the matching loop, summarized: a `some` result is an
existing profile attaining the minimum score over all profiles, and that
minimum is strictly below the threshold. -/
theorem scanProfiles_min (vf : VoiceFeatures) (thr : ℚ)
    (ps : List (Nat × Participant)) (sid : Nat) (sc : ℚ)
    (h : scanProfiles vf thr ps none = some (sid, sc)) :
    (∃ p, (sid, p) ∈ ps ∧ profileScore p vf = sc) ∧ sc < thr ∧
      ∀ ip ∈ ps, sc ≤ profileScore ip.2 vf := by
  obtain ⟨hmem, hmin, -⟩ := scanProfiles_eq_some vf thr ps none sid sc h
  rcases hmem with heq | ⟨p, hp, hsc, hlt⟩
  · cases heq
  refine ⟨⟨p, hp, hsc⟩, hlt, ?_⟩
  intro ip hip
  by_cases h1 : profileScore ip.2 vf < thr
  · exact hmin ip hip h1
  · exact le_of_lt (lt_of_lt_of_le hlt (le_of_not_lt h1))
theorem lookupP_cons (a : Nat) (b : Participant) (tl : List (Nat × Participant))
    (sid : Nat) :
    lookupP ((a, b) :: tl) sid = if a == sid then some b else lookupP tl sid := by
  by_cases h : a == sid <;> simp [lookupP, List.find?, h]

theorem updateP_cons (a : Nat) (b : Participant) (tl : List (Nat × Participant))
    (sid : Nat) (p : Participant) :
    updateP ((a, b) :: tl) sid p =
      (if a == sid then (sid, p) else (a, b)) :: updateP tl sid p := by
  simp only [updateP, List.map_cons]

theorem lookupP_of_mem (ps : List (Nat × Participant)) (sid : Nat)
    (p : Participant) (h : (sid, p) ∈ ps) : ∃ q, lookupP ps sid = some q := by
  induction ps with
  | nil => cases h
  | cons hd tl ih =>
      obtain ⟨a, b⟩ := hd
      rw [lookupP_cons]
      by_cases ha : a == sid
      · exact ⟨b, by rw [if_pos ha]⟩
      · rw [if_neg ha]
        rcases List.mem_cons.mp h with heq | hmem
        · cases heq
          exact absurd (beq_self_eq_true sid) ha
        · exact ih hmem

theorem updateP_keys (ps : List (Nat × Participant)) (sid : Nat) (p : Participant) :
    (updateP ps sid p).map Prod.fst = ps.map Prod.fst := by
  induction ps with
  | nil => rfl
  | cons hd tl ih =>
      obtain ⟨a, b⟩ := hd
      rw [updateP_cons]
      by_cases ha : a == sid
      · have ha' : a = sid := by simpa using ha
        rw [if_pos ha]
        simp only [List.map_cons, ih, ha']
      · rw [if_neg ha]
        simp only [List.map_cons, ih]

theorem mem_updateP (ps : List (Nat × Participant)) (sid : Nat) (p : Participant)
    (ip : Nat × Participant) (h : ip ∈ updateP ps sid p) :
    ip = (sid, p) ∨ (ip ∈ ps ∧ ip.1 ≠ sid) := by
  induction ps with
  | nil => cases h
  | cons hd tl ih =>
      obtain ⟨a, b⟩ := hd
      rw [updateP_cons] at h
      rcases List.mem_cons.mp h with heq | hmem
      · by_cases ha : a == sid
        · rw [if_pos ha] at heq
          exact Or.inl heq
        · rw [if_neg ha] at heq
          refine Or.inr ⟨heq ▸ List.mem_cons_self _ _, ?_⟩
          rw [heq]
          simpa using ha
      · rcases ih hmem with h1 | ⟨h1, h2⟩
        · exact Or.inl h1
        · exact Or.inr ⟨List.mem_cons_of_mem _ h1, h2⟩

theorem lookupP_updateP_self (ps : List (Nat × Participant)) (sid : Nat)
    (p q : Participant) (h : lookupP ps sid = some q) :
    lookupP (updateP ps sid p) sid = some p := by
  induction ps with
  | nil => simp [lookupP, List.find?] at h
  | cons hd tl ih =>
      obtain ⟨a, b⟩ := hd
      rw [lookupP_cons] at h
      rw [updateP_cons]
      by_cases ha : a == sid
      · rw [if_pos ha, lookupP_cons, if_pos (beq_self_eq_true sid)]
      · rw [if_neg ha] at h
        rw [if_neg ha, lookupP_cons, if_neg ha]
        exact ih h

theorem lookupP_updateP_ne (ps : List (Nat × Participant)) (sid : Nat)
    (p : Participant) (sid' : Nat) (h : sid' ≠ sid) :
    lookupP (updateP ps sid p) sid' = lookupP ps sid' := by
  induction ps with
  | nil => rfl
  | cons hd tl ih =>
      obtain ⟨a, b⟩ := hd
      rw [updateP_cons]
      by_cases ha : a == sid
      · have ha' : a = sid := by simpa using ha
        rw [if_pos ha, lookupP_cons, lookupP_cons]
        have h1 : (sid == sid') = false := by
          simp only [beq_eq_false_iff_ne, ne_eq]
          exact fun hh => h hh.symm
        have h2 : (a == sid') = false := by rw [ha']; exact h1
        rw [h1, h2]
        simp only [if_neg, Bool.false_eq_true, if_false]
        exact ih
      · rw [if_neg ha, lookupP_cons, lookupP_cons]
        by_cases ha' : a == sid'
        · rw [if_pos ha', if_pos ha']
        · rw [if_neg ha', if_neg ha']
          exact ih

theorem countBySpeaker_append (tr : List Entry) (e : Entry) (sid : Nat) :
    countBySpeaker (tr ++ [e]) sid =
      countBySpeaker tr sid + (if e.speaker_id = sid then 1 else 0) := by
  by_cases h : e.speaker_id = sid <;>
    simp [countBySpeaker, List.filter_append, h]

/-- The matched branch of `get_or_create_speaker`, as an equation. -/
theorem goc_match_eq (s : MeetingStore) (vf : VoiceFeatures) (src : Text)
    (sid : Nat) (sc : ℚ) (data : Participant)
    (hscan : scanProfiles vf s.threshold s.participants none = some (sid, sc))
    (hdata : lookupP s.participants sid = some data) :
    s.get_or_create_speaker vf src =
      (sid, { s with participants := updateP s.participants sid ({ data with
                avg_pitch := 0.3 * vf.avg_pitch.getD 100 +
                  (1 - 0.3) * data.avg_pitch,
                avg_pace := 0.3 * vf.words_per_minute.getD 120 +
                  (1 - 0.3) * data.avg_pace,
                samples_count := countBySpeaker s.transcript sid + 1 }) }) := by
  unfold MeetingStore.get_or_create_speaker
  rw [hscan]
  dsimp only
  rw [hdata]

/-- The creation branch of `get_or_create_speaker`, as an equation. -/
theorem goc_create_eq (s : MeetingStore) (vf : VoiceFeatures) (src : Text)
    (hscan : scanProfiles vf s.threshold s.participants none = none) :
    s.get_or_create_speaker vf src =
      (s.idSupply, { s with
        speaker_counter := s.speaker_counter + 1,
        participants := s.participants ++ [(s.idSupply,
          { name := "Participant ".toList ++
              Nat.toDigits 10 (s.speaker_counter + 1) ++
              (if remoteSources.contains src then " (Remote)".toList else []),
            avg_pitch := vf.avg_pitch.getD 100,
            avg_pace := vf.words_per_minute.getD 120,
            avg_energy := vf.energy.getD 5000,
            audio_source := src,
            is_remote := remoteSources.contains src,
            samples_count := 1 })],
        idSupply := s.idSupply + 1 }) := by
  unfold MeetingStore.get_or_create_speaker
  rw [hscan]

theorem claimScore_eq_profileScore (p : Participant) (P W E : ℚ) :
    claimScore p P W E = profileScore p ⟨some P, some W, some E⟩ := by
  unfold claimScore profileScore
  simp only [Option.getD_some]
  ring

theorem contains_remote_iff (src : Text) :
    remoteSources.contains src = true ↔ src ∈ remoteSources := by
  simp [List.contains]

/-- C1: For every session state and every input feature vector, speaker
resolution computes for each existing profile the score
`0.5*|pitch difference| + 0.3*(|pace difference|/10) + 0.2*(|energy difference|/50)`,
and returns the id of the minimum-score profile when that minimum is
strictly below the threshold (20 when the session's meeting type is
physical or online, 25 when it is hybrid); otherwise it creates a new
profile named `Participant {counter}` with the suffix ` (Remote)` exactly
when the audio source is one of tab_audio, system_audio, screen_share,
and returns the new profile's id. -/
theorem c1_speaker_resolution (s : MeetingStore) (P W E : ℚ) (src : Text)
    (hfresh : ∀ ip ∈ s.participants, ip.1 < s.idSupply)
    (hmt : s.meeting_type = "physical".toList ∨
      s.meeting_type = "online".toList ∨ s.meeting_type = "hybrid".toList) :
    ((∃ ip ∈ s.participants, claimScore ip.2 P W E <
        (if s.meeting_type = "hybrid".toList then (25 : ℚ) else 20)) →
      ∃ p, ((s.get_or_create_speaker ⟨some P, some W, some E⟩ src).1, p) ∈
          s.participants ∧
        claimScore p P W E <
          (if s.meeting_type = "hybrid".toList then (25 : ℚ) else 20) ∧
        (∀ ip ∈ s.participants, claimScore p P W E ≤ claimScore ip.2 P W E) ∧
        ((s.get_or_create_speaker ⟨some P, some W, some E⟩ src).2.participants.map
            Prod.fst = s.participants.map Prod.fst)) ∧
    ((∀ ip ∈ s.participants,
        (if s.meeting_type = "hybrid".toList then (25 : ℚ) else 20) ≤
          claimScore ip.2 P W E) →
      (s.get_or_create_speaker ⟨some P, some W, some E⟩ src).1 ∉
        s.participants.map Prod.fst ∧
      ∃ p : Participant,
        (s.get_or_create_speaker ⟨some P, some W, some E⟩ src).2.participants =
          s.participants ++
            [((s.get_or_create_speaker ⟨some P, some W, some E⟩ src).1, p)] ∧
        p.name = "Participant ".toList ++
          Nat.toDigits 10 (s.speaker_counter + 1) ++
          (if src ∈ remoteSources then " (Remote)".toList else []) ∧
        p.avg_pitch = P ∧ p.avg_pace = W ∧ p.avg_energy = E) := by
  have hthr : (if s.meeting_type = "hybrid".toList then (25 : ℚ) else 20) =
      s.threshold := rfl
  have hcs : ∀ p : Participant,
      claimScore p P W E = profileScore p ⟨some P, some W, some E⟩ :=
    fun p => claimScore_eq_profileScore p P W E
  constructor
  · rintro ⟨ip, hip, hlt⟩
    rw [hthr, hcs] at hlt
    cases hscan : scanProfiles ⟨some P, some W, some E⟩ s.threshold
        s.participants none with
    | none =>
        obtain ⟨-, hall⟩ := scanProfiles_eq_none _ _ _ _ hscan
        exact absurd hlt (not_lt.mpr (hall ip hip))
    | some b =>
        obtain ⟨sid, sc⟩ := b
        obtain ⟨⟨p, hpmem, hpsc⟩, hsc, hmin⟩ :=
          scanProfiles_min _ _ _ _ _ hscan
        obtain ⟨data, hdata⟩ := lookupP_of_mem s.participants sid p hpmem
        rw [goc_match_eq s _ src sid sc data hscan hdata]
        refine ⟨p, hpmem, ?_, ?_, ?_⟩
        · rw [hthr, hcs, hpsc]; exact hsc
        · intro ip' hip'
          rw [hcs p, hcs ip'.2, hpsc]
          exact hmin ip' hip'
        · exact updateP_keys s.participants sid _
  · intro hall
    rw [hthr] at hall
    have hscan : scanProfiles ⟨some P, some W, some E⟩ s.threshold
        s.participants none = none := by
      cases hscan : scanProfiles ⟨some P, some W, some E⟩ s.threshold
          s.participants none with
      | none => rfl
      | some b =>
          obtain ⟨sid, sc⟩ := b
          obtain ⟨⟨p, hpmem, hpsc⟩, hsc, -⟩ :=
            scanProfiles_min _ _ _ _ _ hscan
          have h := hall (sid, p) hpmem
          rw [hcs, hpsc] at h
          exact absurd hsc (not_lt.mpr h)
    rw [goc_create_eq s _ src hscan]
    constructor
    · intro hmem'
      obtain ⟨ip, hip, hfst⟩ := List.mem_map.mp hmem'
      have := hfresh ip hip
      rw [hfst] at this
      exact lt_irrefl _ this
    · refine ⟨_, rfl, ?_, rfl, rfl, rfl⟩
      by_cases hrem : src ∈ remoteSources
      · rw [if_pos ((contains_remote_iff src).mpr hrem), if_pos hrem]
      · rw [if_neg (fun hc => hrem ((contains_remote_iff src).mp hc)),
          if_neg hrem]

theorem c1_speaker_resolution_witness :
    (∀ ip ∈ sOne.participants, ip.1 < sOne.idSupply) ∧
    (sOne.meeting_type = "physical".toList ∨
      sOne.meeting_type = "online".toList ∨
      sOne.meeting_type = "hybrid".toList) ∧
    (∃ ip ∈ sOne.participants, claimScore ip.2 100 120 5000 <
        (if sOne.meeting_type = "hybrid".toList then (25 : ℚ) else 20)) ∧
    (∃ p, ((sOne.get_or_create_speaker ⟨some 100, some 120, some 5000⟩
          "microphone".toList).1, p) ∈ sOne.participants ∧
      claimScore p 100 120 5000 <
        (if sOne.meeting_type = "hybrid".toList then (25 : ℚ) else 20) ∧
      (∀ ip ∈ sOne.participants,
        claimScore p 100 120 5000 ≤ claimScore ip.2 100 120 5000) ∧
      ((sOne.get_or_create_speaker ⟨some 100, some 120, some 5000⟩
          "microphone".toList).2.participants.map Prod.fst =
        sOne.participants.map Prod.fst)) := by
  have h1 : ∀ ip ∈ sOne.participants, ip.1 < sOne.idSupply := by decide
  have h2 : sOne.meeting_type = "physical".toList ∨
      sOne.meeting_type = "online".toList ∨
      sOne.meeting_type = "hybrid".toList := Or.inl rfl
  have h3 : ∃ ip ∈ sOne.participants, claimScore ip.2 100 120 5000 <
      (if sOne.meeting_type = "hybrid".toList then (25 : ℚ) else 20) := by
    refine ⟨(0, p0), by simp [sOne], ?_⟩
    rw [show (if sOne.meeting_type = "hybrid".toList then (25 : ℚ) else 20) =
      20 from rfl]
    norm_num [claimScore, p0]
  exact ⟨h1, h2, h3,
    (c1_speaker_resolution sOne 100 120 5000 "microphone".toList h1 h2).1 h3⟩

theorem isAnswerB_iff (text : Text) (tsq : Int) (lspk spk : Nat) :
    isAnswerB text tsq lspk spk = true ↔
      ((tsq ≤ 4 ∧ lspk ≠ spk ∧ endsWithC text '?' = false) ∨
       ∃ st ∈ answerStarters, st.isPrefixOf (toLowerT text) = true) := by
  unfold isAnswerB
  simp [List.any_eq_true, and_assoc]

theorem popsB_iff (text : Text) (tsq : Int) :
    popsB text tsq = true ↔
      (tsq ≥ 2 ∨ endsWithC text '.' = true ∨ text.length > 100) := by
  unfold popsB
  simp [or_assoc]

theorem threadClassify_of_question (e0 : Entry) (text : Text) (tlen spk : Nat)
    (pending : List PendingQ) (hq : is_question text = true) :
    threadClassify e0 text tlen spk pending =
      ({ e0 with type := EType.question, question_id := some tlen },
       pending ++ [{ index := tlen, speaker := spk }]) := by
  unfold threadClassify
  simp [hq]

theorem threadClassify_of_statement (e0 : Entry) (text : Text) (tlen spk : Nat)
    (pending : List PendingQ) (last_q : PendingQ)
    (hq : is_question text = false)
    (hpend : pending.getLast? = some last_q) :
    threadClassify e0 text tlen spk pending =
      (if isAnswerB text ((tlen : Int) - last_q.index) last_q.speaker spk then
        ({ e0 with type := EType.answer,
                   answers_question := some last_q.index },
         if popsB text ((tlen : Int) - last_q.index) then pending.dropLast
         else pending)
      else (e0, pending)) := by
  unfold threadClassify
  simp only [hq, Bool.false_eq_true, if_false]
  rw [hpend]

theorem threadClassify_of_empty (e0 : Entry) (text : Text) (tlen spk : Nat)
    (pending : List PendingQ)
    (hq : is_question text = false)
    (hpend : pending.getLast? = none) :
    threadClassify e0 text tlen spk pending = (e0, pending) := by
  unfold threadClassify
  simp only [hq, Bool.false_eq_true, if_false]
  rw [hpend]

theorem baseEntry_type (a : Nat) (sd : Participant) (text : Text)
    (vf : VoiceFeatures) (src : Text) :
    (baseEntry a sd text vf src).type = EType.statement := rfl

theorem baseEntry_speaker_id (a : Nat) (sd : Participant) (text : Text)
    (vf : VoiceFeatures) (src : Text) :
    (baseEntry a sd text vf src).speaker_id = a := rfl

theorem baseEntry_answers_question (a : Nat) (sd : Participant) (text : Text)
    (vf : VoiceFeatures) (src : Text) :
    (baseEntry a sd text vf src).answers_question = none := rfl

theorem baseEntry_question_id (a : Nat) (sd : Participant) (text : Text)
    (vf : VoiceFeatures) (src : Text) :
    (baseEntry a sd text vf src).question_id = none := rfl

theorem baseEntry_text (a : Nat) (sd : Participant) (text : Text)
    (vf : VoiceFeatures) (src : Text) :
    (baseEntry a sd text vf src).text = text := rfl

/-- C2: an appended non-question utterance, with the pending stack
non-empty, is classified as an answer to the top pending question exactly
under the distance/speaker/terminator condition or the answer-starter
override; and when it is an answer, the question is popped exactly when
the distance is at least 2, the text ends with a period, or the text is
longer than 100 characters. -/
theorem c2_answer_threading (s : MeetingStore) (text : Text)
    (vf : VoiceFeatures) (src : Text) (last_q : PendingQ)
    (hq : is_question text = false)
    (hpend : s.unanswered_questions.getLast? = some last_q) :
    (((s.add_utterance text vf src).1.type = EType.answer ∧
        (s.add_utterance text vf src).1.answers_question = some last_q.index) ↔
      (((s.transcript.length : Int) - last_q.index ≤ 4 ∧
          last_q.speaker ≠ (s.add_utterance text vf src).1.speaker_id ∧
          endsWithC text '?' = false) ∨
        ∃ st ∈ answerStarters, st.isPrefixOf (toLowerT text) = true)) ∧
    ((s.add_utterance text vf src).1.type = EType.answer →
      (s.add_utterance text vf src).2.unanswered_questions =
        (if (s.transcript.length : Int) - last_q.index ≥ 2 ∨
            endsWithC text '.' = true ∨ text.length > 100 then
          s.unanswered_questions.dropLast
        else s.unanswered_questions)) := by
  rw [add_utterance_unfold]
  dsimp only
  rw [threadClassify_of_statement _ _ _ _ _ last_q hq hpend]
  by_cases hans : isAnswerB text ((s.transcript.length : Int) - last_q.index)
      last_q.speaker (s.get_or_create_speaker vf src).1
  · rw [if_pos hans]
    dsimp only
    constructor
    · simp only [applyFlags_type, applyFlags_answers_question,
        applyFlags_speaker_id]
      constructor
      · intro _
        have h := (isAnswerB_iff text _ last_q.speaker
          (s.get_or_create_speaker vf src).1).mp hans
        simpa [baseEntry_speaker_id] using h
      · intro _
        exact ⟨trivial, trivial⟩
    · intro _
      by_cases hpop : popsB text ((s.transcript.length : Int) - last_q.index)
      · rw [if_pos hpop, if_pos ((popsB_iff text _).mp hpop)]
      · rw [if_neg hpop, if_neg (fun hc => hpop ((popsB_iff text _).mpr hc))]
  · rw [if_neg hans]
    dsimp only
    constructor
    · constructor
      · rintro ⟨h1, -⟩
        rw [applyFlags_type, baseEntry_type] at h1
        cases h1
      · intro hrhs
        refine absurd ((isAnswerB_iff text _ last_q.speaker
          (s.get_or_create_speaker vf src).1).mpr ?_) hans
        simpa [applyFlags_speaker_id, baseEntry_speaker_id] using hrhs
    · intro h1
      rw [applyFlags_type, baseEntry_type] at h1
      cases h1
theorem c2_answer_threading_witness :
    is_question "The sky is blue".toList = false ∧
    sA.unanswered_questions.getLast? = some ⟨0, 0⟩ ∧
    ((((sA.add_utterance "The sky is blue".toList vfFar
            "microphone".toList).1.type = EType.answer ∧
        (sA.add_utterance "The sky is blue".toList vfFar
            "microphone".toList).1.answers_question = some (0 : Nat)) ↔
       (((sA.transcript.length : Int) - ((0 : Nat) : Int) ≤ 4 ∧
          (0 : Nat) ≠ (sA.add_utterance "The sky is blue".toList vfFar
            "microphone".toList).1.speaker_id ∧
          endsWithC "The sky is blue".toList '?' = false) ∨
        ∃ st ∈ answerStarters,
          st.isPrefixOf (toLowerT "The sky is blue".toList) = true)) ∧
     ((sA.add_utterance "The sky is blue".toList vfFar
          "microphone".toList).1.type = EType.answer →
       (sA.add_utterance "The sky is blue".toList vfFar
           "microphone".toList).2.unanswered_questions =
         (if (sA.transcript.length : Int) - ((0 : Nat) : Int) ≥ 2 ∨
             endsWithC "The sky is blue".toList '.' = true ∨
             ("The sky is blue".toList).length > 100 then
           sA.unanswered_questions.dropLast
         else sA.unanswered_questions))) :=
  ⟨by decide, by decide,
    c2_answer_threading sA "The sky is blue".toList vfFar "microphone".toList
      ⟨0, 0⟩ (by decide) (by decide)⟩

theorem stripT_getLast? (t : Text) (c : Char) (hc : c.isWhitespace = false)
    (h : t.getLast? = some c) : (stripT t).getLast? = some c := by
  have hmem : c ∈ t := by
    obtain ⟨hne, heq⟩ :=
      List.mem_getLast?_eq_getLast (x := c) (l := t) (by simp [h])
    rw [heq]
    exact List.getLast_mem hne
  have hsplit : t.takeWhile Char.isWhitespace ++ t.dropWhile Char.isWhitespace
      = t := List.takeWhile_append_dropWhile _ _
  have hune : t.dropWhile Char.isWhitespace ≠ [] := by
    intro h0
    have hht : t.takeWhile Char.isWhitespace = t := by
      conv_rhs => rw [← hsplit, h0]
      rw [List.append_nil]
    have hcw : Char.isWhitespace c = true :=
      List.mem_takeWhile_imp (by rw [hht]; exact hmem)
    rw [hcw] at hc
    cases hc
  have hu_last : (t.dropWhile Char.isWhitespace).getLast? = some c := by
    have happ := List.getLast?_append_of_ne_nil
      (t.takeWhile Char.isWhitespace) hune
    rw [hsplit] at happ
    rw [← happ]
    exact h
  have hrev_head : (t.dropWhile Char.isWhitespace).reverse.head? = some c := by
    rw [List.head?_reverse]
    exact hu_last
  obtain ⟨rest, hrest⟩ :
      ∃ rest, (t.dropWhile Char.isWhitespace).reverse = c :: rest := by
    cases hu' : (t.dropWhile Char.isWhitespace).reverse with
    | nil => rw [hu'] at hrev_head; cases hrev_head
    | cons a r =>
        rw [hu'] at hrev_head
        cases hrev_head
        exact ⟨r, rfl⟩
  show (((t.dropWhile Char.isWhitespace).reverse.dropWhile
      Char.isWhitespace).reverse).getLast? = some c
  rw [hrest, List.dropWhile_cons, hc]
  simp only [Bool.false_eq_true, if_false, List.getLast?_reverse,
    List.head?_cons]

/-- C9: an utterance whose raw text ends with a question mark is always
classified as a question. -/
theorem c9_question_mark (s : MeetingStore) (text : Text) (vf : VoiceFeatures)
    (src : Text) (h : endsWithC text '?' = true) :
    (s.add_utterance text vf src).1.type = EType.question := by
  have hlast : text.getLast? = some '?' := by simpa [endsWithC] using h
  have hstrip : endsWithC (stripT text) '?' = true := by
    simp [endsWithC, stripT_getLast? text '?' rfl hlast]
  have hq : is_question text = true := by
    unfold is_question
    simp [hstrip]
  rw [add_utterance_unfold]
  dsimp only
  rw [threadClassify_of_question _ _ _ _ _ hq]
  rw [applyFlags_type]

theorem c9_question_mark_witness :
    endsWithC "Can we ship Friday?".toList '?' = true ∧
    (sInit.add_utterance "Can we ship Friday?".toList vfMain
      "microphone".toList).1.type = EType.question :=
  ⟨by decide,
    c9_question_mark sInit "Can we ship Friday?".toList vfMain
      "microphone".toList (by decide)⟩

/-- C5: minutes synthesis is a deterministic read-only function of the
session state; in particular it does not depend on the wall clock once a
start timestamp is recorded. -/
theorem c5_minutes_deterministic (s : MeetingStore) (t : Int)
    (h : s.start_time = some t) (n1 n2 : Int) :
    s.get_minutes_structure n1 = s.get_minutes_structure n2 := by
  unfold MeetingStore.get_minutes_structure
  rw [h]
  simp only [Option.getD_some]

theorem c5_minutes_deterministic_witness :
    sOne.start_time = some 0 ∧
    sOne.get_minutes_structure 5 = sOne.get_minutes_structure 9 :=
  ⟨rfl, c5_minutes_deterministic sOne 0 rfl 5 9⟩

/-! ## The minutes forward scan -/

theorem scanQA_answers_eq (i qspk : Nat) :
    ∀ (l : List Entry) (j : Nat),
      (scanQA i qspk l j).1 =
        List.range' j
          (l.takeWhile (fun x => x.answers_question == some i)).length := by
  intro l
  induction l with
  | nil => intro j; rfl
  | cons e rest ih =>
      intro j
      by_cases he : e.answers_question == some i
      · simp only [scanQA, he, if_true, List.takeWhile_cons, List.length_cons]
        rw [List.range'_succ]
        simp only [List.cons.injEq, true_and]
        exact ih (j + 1)
      · simp only [scanQA, he, Bool.false_eq_true, if_false,
          List.takeWhile_cons, List.length_nil]
        split
        · split <;> rfl
        · rfl

/-- C3 counterexample: in `trC3`, entry 2 carries `answersQuestion = 0`,
but the forward scan of question 0 stops at the intervening statement
(entry 1) and collects no answers at all, instead of continuing past it. -/
theorem c3_counterexample :
    trC3[2]?.map Entry.answers_question = some (some 0) ∧
    trC3[1]?.map Entry.type = some EType.statement ∧
    (∀ g ∈ qaPairs trC3, g.question = 0 → (2 : Nat) ∉ g.answers) := by
  decide

/-- At every question entry, `qaPairs` contains the group built by the
forward scan from that index. -/
theorem qaPairs_mem_of_question (tr : List Entry) (i : Nat) (e : Entry)
    (hi : tr[i]? = some e) (hq : e.type = EType.question) :
    ({ question := i,
       answers := (scanQA i e.speaker_id (tr.drop (i + 1)) (i + 1)).1,
       follow_ups := (scanQA i e.speaker_id (tr.drop (i + 1)) (i + 1)).2 } :
      QAGroup) ∈ qaPairs tr := by
  unfold qaPairs
  apply List.mem_filterMap.mpr
  refine ⟨i, ?_, ?_⟩
  · apply List.mem_range.mpr
    obtain ⟨hlt, -⟩ := List.getElem?_eq_some.mp hi
    exact hlt
  · rw [hi]
    simp [hq]

/-- C3 amended: the forward scan collects exactly the consecutive run of
entries immediately following the question whose `answersQuestion` equals
the question's index, stopping at the first entry that does not answer it
(whether or not that entry is a question). -/
theorem c3_amended_forward_scan (tr : List Entry) (i : Nat) (e : Entry)
    (hi : tr[i]? = some e) (hq : e.type = EType.question) :
    ∃ g ∈ qaPairs tr, g.question = i ∧
      g.answers = List.range' (i + 1)
        ((List.takeWhile (fun x => x.answers_question == some i)
          (tr.drop (i + 1))).length) := by
  refine ⟨{ question := i,
            answers := (scanQA i e.speaker_id (tr.drop (i + 1)) (i + 1)).1,
            follow_ups := (scanQA i e.speaker_id (tr.drop (i + 1)) (i + 1)).2 },
    qaPairs_mem_of_question tr i e hi hq, rfl,
    scanQA_answers_eq i e.speaker_id (tr.drop (i + 1)) (i + 1)⟩

theorem c3_amended_forward_scan_witness :
    trC3[0]? = some qEntry0 ∧ qEntry0.type = EType.question ∧
    ∃ g ∈ qaPairs trC3, g.question = 0 ∧
      g.answers = List.range' (0 + 1)
        ((List.takeWhile (fun x => x.answers_question == some 0)
          (trC3.drop (0 + 1))).length) :=
  ⟨rfl, rfl, c3_amended_forward_scan trC3 0 qEntry0 rfl rfl⟩

/-- C4 counterexample: in `trC4`, question 1 is consumed as a follow-up
of the group opened at question 0, yet the synthesis still opens a second
Q&A group headed by question 1. -/
theorem c4_counterexample :
    (∃ g ∈ qaPairs trC4, g.question = 0 ∧ (1 : Nat) ∈ g.follow_ups) ∧
    (∃ g ∈ qaPairs trC4, g.question = 1) := by
  decide

theorem minutesDecisions_spec (tr : List Entry) (j : Nat)
    (hj : j ∈ minutesDecisions tr) :
    (usedIndices tr).contains j = false ∧
      ∃ e, tr[j]? = some e ∧ e.is_decision = true := by
  simp only [minutesDecisions, List.mem_filter] at hj
  obtain ⟨-, h2⟩ := hj
  obtain ⟨h2a, h3⟩ := Bool.and_eq_true_iff.mp h2
  refine ⟨by simpa using h2a, ?_⟩
  cases he : tr[j]? with
  | none => rw [he] at h3; cases h3
  | some e => rw [he] at h3; exact ⟨e, rfl, h3⟩

theorem minutesActionItems_spec (tr : List Entry) (j : Nat)
    (hj : j ∈ minutesActionItems tr) :
    (usedIndices tr).contains j = false ∧
      ∃ e, tr[j]? = some e ∧ e.is_decision = false ∧
        e.is_action_item = true := by
  simp only [minutesActionItems, List.mem_filter] at hj
  obtain ⟨-, h2⟩ := hj
  obtain ⟨h2a, h3⟩ := Bool.and_eq_true_iff.mp h2
  refine ⟨by simpa using h2a, ?_⟩
  cases he : tr[j]? with
  | none => rw [he] at h3; cases h3
  | some e =>
      rw [he] at h3
      obtain ⟨hd, ha⟩ := Bool.and_eq_true_iff.mp h3
      exact ⟨e, rfl, by simpa using hd, ha⟩

theorem minutesKeyPoints_spec (tr : List Entry) (j : Nat)
    (hj : j ∈ minutesKeyPoints tr) :
    (usedIndices tr).contains j = false ∧
      ∃ e, tr[j]? = some e ∧ e.is_decision = false ∧
        e.is_action_item = false := by
  simp only [minutesKeyPoints, List.mem_filter] at hj
  obtain ⟨-, h2⟩ := hj
  obtain ⟨h2a, h3⟩ := Bool.and_eq_true_iff.mp h2
  refine ⟨by simpa using h2a, ?_⟩
  cases he : tr[j]? with
  | none => rw [he] at h3; cases h3
  | some e =>
      rw [he] at h3
      obtain ⟨h5, -⟩ := Bool.and_eq_true_iff.mp h3
      obtain ⟨h6, -⟩ := Bool.and_eq_true_iff.mp h5
      obtain ⟨hd, ha⟩ := Bool.and_eq_true_iff.mp h6
      exact ⟨e, rfl, by simpa using hd, by simpa using ha⟩

/-- C4 amended: minutes synthesis opens a Q&A group at every question
entry (including questions already consumed as answers or follow-ups of an
earlier group), and the second-pass buckets are pairwise disjoint and
exclude every index consumed by the Q&A pass. -/
theorem c4_amended_buckets (tr : List Entry) :
    (∀ (i : Nat) (e : Entry), tr[i]? = some e → e.type = EType.question →
      ∃ g ∈ qaPairs tr, g.question = i) ∧
    (∀ j ∈ usedIndices tr,
      j ∉ minutesDecisions tr ∧ j ∉ minutesActionItems tr ∧
        j ∉ minutesKeyPoints tr) ∧
    (∀ j ∈ minutesDecisions tr,
      j ∉ minutesActionItems tr ∧ j ∉ minutesKeyPoints tr) ∧
    (∀ j ∈ minutesActionItems tr, j ∉ minutesKeyPoints tr) := by
  refine ⟨?_, ?_, ?_, ?_⟩
  · intro i e hi hq
    exact ⟨_, qaPairs_mem_of_question tr i e hi hq, rfl⟩
  · intro j hj
    have hcont : (usedIndices tr).contains j = true := by
      simp [List.contains, hj]
    refine ⟨fun hm => ?_, fun hm => ?_, fun hm => ?_⟩
    · rw [(minutesDecisions_spec tr j hm).1] at hcont; cases hcont
    · rw [(minutesActionItems_spec tr j hm).1] at hcont; cases hcont
    · rw [(minutesKeyPoints_spec tr j hm).1] at hcont; cases hcont
  · intro j hj
    obtain ⟨-, e, he, hd⟩ := minutesDecisions_spec tr j hj
    constructor
    · intro hm
      obtain ⟨-, e', he', hd', -⟩ := minutesActionItems_spec tr j hm
      rw [he] at he'
      cases he'
      rw [hd] at hd'
      cases hd'
    · intro hm
      obtain ⟨-, e', he', hd', -⟩ := minutesKeyPoints_spec tr j hm
      rw [he] at he'
      cases he'
      rw [hd] at hd'
      cases hd'
  · intro j hj
    obtain ⟨-, e, he, -, ha⟩ := minutesActionItems_spec tr j hj
    intro hm
    obtain ⟨-, e', he', -, ha'⟩ := minutesKeyPoints_spec tr j hm
    rw [he] at he'
    cases he'
    rw [ha] at ha'
    cases ha'

/-! ## Missing feature fields and the smoothing update -/

theorem scanOne_absent :
    scanProfiles vfAbsent sOne.threshold sOne.participants none = none := by
  rw [show sOne.threshold = (20 : ℚ) from rfl,
    show sOne.participants = [(0, p0)] from rfl]
  norm_num [scanProfiles, profileScore, vfAbsent, p0]

theorem scanOne_energy :
    scanProfiles vfEnergyShift sOne.threshold sOne.participants none =
      some (0, 4) := by
  rw [show sOne.threshold = (20 : ℚ) from rfl,
    show sOne.participants = [(0, p0)] from rfl]
  norm_num [scanProfiles, profileScore, vfEnergyShift, p0]

/-- C6 counterexample: with every feature field absent, the claimed
prior-based distance to the only profile is 0 (far below the threshold of
20), yet resolution does not match that profile: the scoring loop uses 0
defaults, computes 73.6, and creates a second profile. -/
theorem c6_counterexample :
    claimScore p0 100 120 5000 < 20 ∧
    profileScore p0 vfAbsent = 73.6 ∧
    (sOne.get_or_create_speaker vfAbsent "microphone".toList).1 = 1 ∧
    (sOne.get_or_create_speaker vfAbsent
      "microphone".toList).2.participants.length = 2 := by
  refine ⟨by norm_num [claimScore, p0], by norm_num [profileScore, vfAbsent, p0],
    ?_, ?_⟩
  · rw [goc_create_eq sOne vfAbsent "microphone".toList scanOne_absent]
    rfl
  · rw [goc_create_eq sOne vfAbsent "microphone".toList scanOne_absent]
    rfl

/-- C6 amended: a missing feature field is treated as 0 (not as its prior)
in the distance-score computation; the priors (pitch 100, pace 120, energy
5000) apply only when storing a new profile's initial averages (and in the
smoothing update); the operation is total. -/
theorem c6_amended_missing_features (s : MeetingStore) (src : Text) :
    (∀ p : Participant, profileScore p vfAbsent =
        0.5 * |p.avg_pitch - 0| + 0.3 * (|p.avg_pace - 0| / 10) +
          0.2 * (|p.avg_energy - 0| / 50)) ∧
    (scanProfiles vfAbsent s.threshold s.participants none = none →
      ∃ p : Participant,
        (s.get_or_create_speaker vfAbsent src).2.participants =
          s.participants ++ [((s.get_or_create_speaker vfAbsent src).1, p)] ∧
        p.avg_pitch = 100 ∧ p.avg_pace = 120 ∧ p.avg_energy = 5000) := by
  constructor
  · intro p
    unfold profileScore
    simp only [vfAbsent, Option.getD_none]
    ring
  · intro hscan
    rw [goc_create_eq s vfAbsent src hscan]
    exact ⟨_, rfl, rfl, rfl, rfl⟩

/-- C7 counterexample: a successful match against `sOne`'s only profile
(score 4 < 20) leaves the profile's energy average untouched at 5000,
where the claimed smoothing update would give 0.3*4000 + 0.7*5000 = 4700. -/
theorem c7_counterexample :
    ∃ p', lookupP (sOne.get_or_create_speaker vfEnergyShift
        "microphone".toList).2.participants 0 = some p' ∧
      p'.avg_energy = 5000 ∧
      0.3 * (4000 : ℚ) + 0.7 * 5000 ≠ p'.avg_energy := by
  rw [goc_match_eq sOne vfEnergyShift "microphone".toList 0 4 p0 scanOne_energy
    rfl]
  refine ⟨_, lookupP_updateP_self sOne.participants 0 _ p0 rfl, rfl, ?_⟩
  norm_num [p0]

/-- C7 amended: on a successful match, the profile's pitch and pace
averages are updated by exponential smoothing with weight 0.3 toward the
(prior-defaulted) sample, while the energy average is left unchanged. -/
theorem c7_amended_smoothing (s : MeetingStore) (vf : VoiceFeatures)
    (src : Text) (sid : Nat) (sc : ℚ) (data : Participant)
    (hscan : scanProfiles vf s.threshold s.participants none = some (sid, sc))
    (hdata : lookupP s.participants sid = some data) :
    ∃ data', lookupP (s.get_or_create_speaker vf src).2.participants sid =
        some data' ∧
      data'.avg_pitch = 0.3 * vf.avg_pitch.getD 100 + 0.7 * data.avg_pitch ∧
      data'.avg_pace = 0.3 * vf.words_per_minute.getD 120 +
        0.7 * data.avg_pace ∧
      data'.avg_energy = data.avg_energy := by
  rw [goc_match_eq s vf src sid sc data hscan hdata]
  refine ⟨_, lookupP_updateP_self _ _ _ _ hdata, ?_, ?_, rfl⟩
  · show 0.3 * vf.avg_pitch.getD 100 + (1 - 0.3) * data.avg_pitch =
      0.3 * vf.avg_pitch.getD 100 + 0.7 * data.avg_pitch
    norm_num
  · show 0.3 * vf.words_per_minute.getD 120 + (1 - 0.3) * data.avg_pace =
      0.3 * vf.words_per_minute.getD 120 + 0.7 * data.avg_pace
    norm_num

theorem c7_amended_smoothing_witness :
    scanProfiles vfEnergyShift sOne.threshold sOne.participants none =
      some (0, 4) ∧
    lookupP sOne.participants 0 = some p0 ∧
    ∃ data', lookupP (sOne.get_or_create_speaker vfEnergyShift
        "microphone".toList).2.participants 0 = some data' ∧
      data'.avg_pitch = 0.3 * vfEnergyShift.avg_pitch.getD 100 +
        0.7 * p0.avg_pitch ∧
      data'.avg_pace = 0.3 * vfEnergyShift.words_per_minute.getD 120 +
        0.7 * p0.avg_pace ∧
      data'.avg_energy = p0.avg_energy :=
  ⟨scanOne_energy, rfl,
    c7_amended_smoothing sOne vfEnergyShift "microphone".toList 0 4 p0
      scanOne_energy rfl⟩

/-! ## The bookkeeping invariant and the sample counter -/

theorem lookupP_mem (ps : List (Nat × Participant)) (sid : Nat)
    (p : Participant) (h : lookupP ps sid = some p) : (sid, p) ∈ ps := by
  induction ps with
  | nil => simp [lookupP, List.find?] at h
  | cons hd tl ih =>
      obtain ⟨a, b⟩ := hd
      rw [lookupP_cons] at h
      by_cases ha : a == sid
      · rw [if_pos ha] at h
        cases h
        have ha' : a = sid := by simpa using ha
        rw [← ha']
        exact List.mem_cons_self _ _
      · rw [if_neg ha] at h
        exact List.mem_cons_of_mem _ (ih h)

theorem lookupP_append (ps qs : List (Nat × Participant)) (sid : Nat)
    (h : lookupP ps sid = none) : lookupP (ps ++ qs) sid = lookupP qs sid := by
  induction ps with
  | nil => rfl
  | cons hd tl ih =>
      obtain ⟨a, b⟩ := hd
      rw [lookupP_cons] at h
      rw [List.cons_append, lookupP_cons]
      by_cases ha : a == sid
      · rw [if_pos ha] at h
        cases h
      · rw [if_neg ha] at h ⊢
        exact ih h

theorem threadClassify_speaker_id (e0 : Entry) (text : Text) (tlen spk : Nat)
    (pending : List PendingQ) :
    (threadClassify e0 text tlen spk pending).1.speaker_id = e0.speaker_id := by
  unfold threadClassify
  dsimp only
  repeat' split
  all_goals rfl

theorem add_utterance_entry_speaker (s : MeetingStore) (text : Text)
    (vf : VoiceFeatures) (src : Text) :
    (s.add_utterance text vf src).1.speaker_id =
      (s.get_or_create_speaker vf src).1 := by
  rw [add_utterance_unfold]
  dsimp only
  rw [applyFlags_speaker_id, threadClassify_speaker_id, baseEntry_speaker_id]

theorem countBySpeaker_zero (tr : List Entry) (sid : Nat)
    (h : ∀ e ∈ tr, e.speaker_id ≠ sid) : countBySpeaker tr sid = 0 := by
  unfold countBySpeaker
  rw [List.filter_eq_nil_iff.mpr]
  · rfl
  · intro e he
    simpa using h e he

theorem storeInv_init (mt title : Text) :
    StoreInv (MeetingStore.init mt title) := by
  refine ⟨by simp [MeetingStore.init], ?_, ?_⟩ <;>
    simp [MeetingStore.init]

theorem storeInv_step (s : MeetingStore) (text : Text) (vf : VoiceFeatures)
    (src : Text) (h : StoreInv s) :
    StoreInv (s.add_utterance text vf src).2 := by
  obtain ⟨hnd, hpart, htr⟩ := h
  have hespk := add_utterance_entry_speaker s text vf src
  rw [add_utterance_unfold] at hespk ⊢
  dsimp only at hespk ⊢
  cases hscan : scanProfiles vf s.threshold s.participants none with
  | some b =>
      obtain ⟨sid, sc⟩ := b
      obtain ⟨⟨q, hqmem, -⟩, -, -⟩ := scanProfiles_min _ _ _ _ _ hscan
      obtain ⟨data, hdata⟩ := lookupP_of_mem s.participants sid q hqmem
      rw [goc_match_eq s vf src sid sc data hscan hdata] at hespk ⊢
      dsimp only at hespk ⊢
      have hsidlt : sid < s.idSupply := (hpart (sid, q) hqmem).1
      refine ⟨?_, ?_, ?_⟩
      · rw [updateP_keys]
        exact hnd
      · intro ip hip
        rcases mem_updateP _ _ _ _ hip with heq | ⟨hmem, hne⟩
        · subst heq
          refine ⟨hsidlt, ?_⟩
          show countBySpeaker s.transcript sid + 1 = _
          rw [countBySpeaker_append, hespk, if_pos rfl]
        · obtain ⟨hlt, hcnt⟩ := hpart ip hmem
          refine ⟨hlt, ?_⟩
          rw [countBySpeaker_append, hespk, if_neg (fun hc => hne hc.symm),
            Nat.add_zero]
          exact hcnt
      · intro e he
        rcases List.mem_append.mp he with he | he
        · exact htr e he
        · rw [List.mem_singleton.mp he, hespk]
          exact hsidlt
  | none =>
      rw [goc_create_eq s vf src hscan] at hespk ⊢
      dsimp only at hespk ⊢
      refine ⟨?_, ?_, ?_⟩
      · rw [List.map_append, List.nodup_append]
        refine ⟨hnd, List.nodup_singleton _, ?_⟩
        intro a ha hb
        obtain ⟨ip, hip, hfst⟩ := List.mem_map.mp ha
        rw [List.mem_singleton.mp hb] at hfst
        have := (hpart ip hip).1
        rw [hfst] at this
        exact lt_irrefl _ this
      · intro ip hip
        rcases List.mem_append.mp hip with hmem | hnew
        · obtain ⟨hlt, hcnt⟩ := hpart ip hmem
          refine ⟨Nat.lt_succ_of_lt hlt, ?_⟩
          rw [countBySpeaker_append, hespk,
            if_neg (fun hc => Nat.lt_irrefl _ (hc ▸ hlt)), Nat.add_zero]
          exact hcnt
        · rw [List.mem_singleton.mp hnew]
          refine ⟨Nat.lt_succ_self _, ?_⟩
          show 1 = countBySpeaker (s.transcript ++ [_]) s.idSupply
          rw [countBySpeaker_append, hespk, if_pos rfl,
            countBySpeaker_zero s.transcript s.idSupply
              (fun e he hc => Nat.lt_irrefl _ (hc ▸ htr e he))]
      · intro e he
        rcases List.mem_append.mp he with he | he
        · exact Nat.lt_succ_of_lt (htr e he)
        · rw [List.mem_singleton.mp he, hespk]
          exact Nat.lt_succ_self _

theorem storeInv_reachable (s : MeetingStore) (h : Reachable s) : StoreInv s := by
  induction h with
  | init mt title => exact storeInv_init mt title
  | step text vf src _ ih => exact storeInv_step _ text vf src ih
  | setStart t _ ih => exact ih
  | setEnd t _ ih => exact ih

/-- C8: during `appendUtterance`, a successful speaker match increments
the matched profile's sample counter by exactly one; a profile created by
the call starts with sample counter 1. -/
theorem c8_sample_counter (s : MeetingStore) (hs : Reachable s) (text : Text)
    (vf : VoiceFeatures) (src : Text) :
    (∀ (sid : Nat) (p : Participant), lookupP s.participants sid = some p →
      (s.add_utterance text vf src).1.speaker_id = sid →
      ∃ p', lookupP (s.add_utterance text vf src).2.participants sid =
          some p' ∧ p'.samples_count = p.samples_count + 1) ∧
    (∀ (sid : Nat) (p' : Participant), lookupP s.participants sid = none →
      lookupP (s.add_utterance text vf src).2.participants sid = some p' →
      p'.samples_count = 1) := by
  obtain ⟨hnd, hpart, htr⟩ := storeInv_reachable s hs
  have hespk := add_utterance_entry_speaker s text vf src
  rw [add_utterance_unfold] at hespk ⊢
  dsimp only at hespk ⊢
  cases hscan : scanProfiles vf s.threshold s.participants none with
  | some b =>
      obtain ⟨sid0, sc⟩ := b
      obtain ⟨⟨q, hqmem, -⟩, -, -⟩ := scanProfiles_min _ _ _ _ _ hscan
      obtain ⟨data, hdata⟩ := lookupP_of_mem s.participants sid0 q hqmem
      rw [goc_match_eq s vf src sid0 sc data hscan hdata] at hespk ⊢
      dsimp only at hespk ⊢
      constructor
      · intro sid p hp hid
        rw [hespk] at hid
        subst hid
        have hpd : p = data := by
          rw [hp] at hdata
          cases hdata
          rfl
        refine ⟨_, lookupP_updateP_self _ _ _ data hdata, ?_⟩
        show countBySpeaker s.transcript sid0 + 1 = p.samples_count + 1
        have hpmem := lookupP_mem _ _ _ hp
        rw [(hpart (sid0, p) hpmem).2]
      · intro sid p' hnone hsome
        by_cases hss : sid = sid0
        · subst hss
          rw [hnone] at hdata
          cases hdata
        · rw [lookupP_updateP_ne _ _ _ _ hss, hnone] at hsome
          cases hsome
  | none =>
      rw [goc_create_eq s vf src hscan] at hespk ⊢
      dsimp only at hespk ⊢
      constructor
      · intro sid p hp hid
        rw [hespk] at hid
        subst hid
        have := (hpart (s.idSupply, p) (lookupP_mem _ _ _ hp)).1
        exact absurd this (lt_irrefl _)
      · intro sid p' hnone hsome
        rw [lookupP_append _ _ _ hnone, lookupP_cons] at hsome
        by_cases hss : s.idSupply == sid
        · rw [if_pos hss] at hsome
          cases hsome
          rfl
        · rw [if_neg hss] at hsome
          simp [lookupP, List.find?] at hsome

theorem c8_sample_counter_witness :
    Reachable sInit ∧
    ((∀ (sid : Nat) (p : Participant),
        lookupP sInit.participants sid = some p →
        (sInit.add_utterance "Hello team".toList vfMain
          "microphone".toList).1.speaker_id = sid →
        ∃ p', lookupP (sInit.add_utterance "Hello team".toList vfMain
            "microphone".toList).2.participants sid = some p' ∧
          p'.samples_count = p.samples_count + 1) ∧
     (∀ (sid : Nat) (p' : Participant),
        lookupP sInit.participants sid = none →
        lookupP (sInit.add_utterance "Hello team".toList vfMain
          "microphone".toList).2.participants sid = some p' →
        p'.samples_count = 1)) :=
  ⟨Reachable.init "physical".toList [],
    c8_sample_counter sInit (Reachable.init "physical".toList [])
      "Hello team".toList vfMain "microphone".toList⟩

/-! ## The threading invariant -/

theorem mem_of_getLast?T {α : Type} (l : List α) (a : α)
    (h : l.getLast? = some a) : a ∈ l := by
  obtain ⟨hne, heq⟩ :=
    List.mem_getLast?_eq_getLast (x := a) (l := l) (by simp [h])
  rw [heq]
  exact List.getLast_mem hne

theorem answersOK_append (tr : List Entry) (e : Entry) (h : AnswersOK tr)
    (he : ∀ k, e.answers_question = some k →
      k < tr.length ∧ ∃ qe, tr[k]? = some qe ∧ qe.type = EType.question ∧
        qe.question_id = some k) :
    AnswersOK (tr ++ [e]) := by
  intro i k x hx hax
  by_cases hi : i < tr.length
  · rw [List.getElem?_append, if_pos hi] at hx
    obtain ⟨hk, qe, hqe, hqt, hqid⟩ := h i k x hx hax
    refine ⟨hk, qe, ?_, hqt, hqid⟩
    rw [List.getElem?_append, if_pos (lt_trans hk hi)]
    exact hqe
  · have hlen : i < tr.length + 1 := by
      obtain ⟨hlt, -⟩ := List.getElem?_eq_some.mp hx
      simpa using hlt
    have hieq : i = tr.length := by omega
    subst hieq
    rw [List.getElem?_concat_length] at hx
    cases hx
    obtain ⟨hk, qe, hqe, hqt, hqid⟩ := he k hax
    refine ⟨hk, qe, ?_, hqt, hqid⟩
    rw [List.getElem?_append, if_pos hk]
    exact hqe

theorem pendingOK_append_entry (tr : List Entry) (e : Entry)
    (pending : List PendingQ) (h : PendingOK tr pending) :
    PendingOK (tr ++ [e]) pending := by
  intro q hq
  obtain ⟨hlt, qe, hqe, hqt, hqid⟩ := h q hq
  refine ⟨?_, qe, ?_, hqt, hqid⟩
  · simp only [List.length_append, List.length_singleton]
    exact Nat.lt_succ_of_lt hlt
  · rw [List.getElem?_append, if_pos hlt]
    exact hqe

theorem pendingOK_dropLast (tr : List Entry) (pending : List PendingQ)
    (h : PendingOK tr pending) : PendingOK tr pending.dropLast :=
  fun q hq => h q (List.dropLast_subset pending hq)

theorem pendingOK_push (tr : List Entry) (e : Entry)
    (pending : List PendingQ) (spk : Nat) (h : PendingOK tr pending)
    (ht : e.type = EType.question) (hid : e.question_id = some tr.length) :
    PendingOK (tr ++ [e]) (pending ++ [{ index := tr.length, speaker := spk }]) := by
  intro q hq
  rcases List.mem_append.mp hq with hq | hq
  · exact pendingOK_append_entry tr e pending h q hq
  · rw [List.mem_singleton.mp hq]
    refine ⟨by simp, e, ?_, ht, hid⟩
    exact List.getElem?_concat_length tr e

theorem threadInv_init (mt title : Text) :
    ThreadInv (MeetingStore.init mt title) := by
  constructor
  · intro i k e he
    simp [MeetingStore.init] at he
  · intro q hq
    simp [MeetingStore.init] at hq

theorem threadInv_step (s : MeetingStore) (text : Text) (vf : VoiceFeatures)
    (src : Text) (h : ThreadInv s) :
    ThreadInv (s.add_utterance text vf src).2 := by
  obtain ⟨h1, h2⟩ := h
  rw [add_utterance_unfold]
  unfold ThreadInv
  dsimp only
  rw [goc_transcript]
  cases hq : is_question text with
  | true =>
      rw [threadClassify_of_question _ _ _ _ _ hq]
      dsimp only
      constructor
      · apply answersOK_append _ _ h1
        intro k hk
        rw [applyFlags_answers_question] at hk
        have hk' : (none : Option Nat) = some k := hk
        cases hk'
      · apply pendingOK_push _ _ _ _ h2
        · rw [applyFlags_type]
        · rw [applyFlags_question_id]
  | false =>
      cases hp : s.unanswered_questions.getLast? with
      | none =>
          rw [threadClassify_of_empty _ _ _ _ _ hq hp]
          dsimp only
          constructor
          · apply answersOK_append _ _ h1
            intro k hk
            rw [applyFlags_answers_question] at hk
            have hk' : (none : Option Nat) = some k := hk
            cases hk'
          · exact pendingOK_append_entry _ _ _ h2
      | some last_q =>
          rw [threadClassify_of_statement _ _ _ _ _ last_q hq hp]
          by_cases hans : isAnswerB text
              ((s.transcript.length : Int) - (last_q.index : Int))
              last_q.speaker (s.get_or_create_speaker vf src).1
          · rw [if_pos hans]
            dsimp only
            have hlqmem := mem_of_getLast?T _ _ hp
            obtain ⟨hlt, qe, hqe, hqt, hqid⟩ := h2 last_q hlqmem
            constructor
            · apply answersOK_append _ _ h1
              intro k hk
              rw [applyFlags_answers_question] at hk
              have hk' : some last_q.index = some k := hk
              cases hk'
              exact ⟨hlt, qe, hqe, hqt, hqid⟩
            · by_cases hpop : popsB text
                  ((s.transcript.length : Int) - (last_q.index : Int))
              · rw [if_pos hpop]
                exact pendingOK_append_entry _ _ _ (pendingOK_dropLast _ _ h2)
              · rw [if_neg hpop]
                exact pendingOK_append_entry _ _ _ h2
          · rw [if_neg hans]
            dsimp only
            constructor
            · apply answersOK_append _ _ h1
              intro k hk
              rw [applyFlags_answers_question] at hk
              have hk' : (none : Option Nat) = some k := hk
              cases hk'
            · exact pendingOK_append_entry _ _ _ h2

theorem threadInv_reachable (s : MeetingStore) (h : Reachable s) :
    ThreadInv s := by
  induction h with
  | init mt title => exact threadInv_init mt title
  | step text vf src _ ih => exact threadInv_step _ text vf src ih
  | setStart t _ ih => exact ih
  | setEnd t _ ih => exact ih

/-- C10: in every reachable session state, every transcript entry with
`answers_question = k` has `k` strictly below its own index, and the entry
at index `k` is a question carrying `question_id = k`. -/
theorem c10_answers_point_back (s : MeetingStore) (hs : Reachable s) :
    ∀ (i k : Nat) (e : Entry), s.transcript[i]? = some e →
      e.answers_question = some k →
      k < i ∧ ∃ qe, s.transcript[k]? = some qe ∧
        qe.type = EType.question ∧ qe.question_id = some k :=
  (threadInv_reachable s hs).1

theorem c10_answers_point_back_witness :
    Reachable sA ∧
    (∀ (i k : Nat) (e : Entry), sA.transcript[i]? = some e →
      e.answers_question = some k →
      k < i ∧ ∃ qe, sA.transcript[k]? = some qe ∧
        qe.type = EType.question ∧ qe.question_id = some k) :=
  ⟨Reachable.step "What is the deadline?".toList vfMain "microphone".toList
      (Reachable.init "physical".toList []),
    c10_answers_point_back sA
      (Reachable.step "What is the deadline?".toList vfMain
        "microphone".toList (Reachable.init "physical".toList []))⟩

/-! ## Sanity checks of the classifier predicates on concrete texts -/

example : is_question "Can we ship Friday?".toList = true := by decide

example : is_question "What is the plan".toList = true := by decide

example : is_question "The sky is blue".toList = false := by decide

example : is_question "Noon works for me.".toList = false := by decide

example : detect_decision "We decided to launch next Monday".toList = true := by
  decide

example : detect_decision "Hello there".toList = false := by decide

example : detect_action_item "I will send the report by friday".toList = true := by
  decide

example : detect_action_item "Nothing here".toList = false := by decide
